import Mathlib

/-!
Verification of the UltrasonicGridMap occupancy-grid library.

Shallow embedding of `grid_cell.h`, `grid_sensor.h` and `grid_map.h`:
real-valued quantities of the grid (`float`/`double` in the source) are
modelled as exact rationals, the transcendental sensor/probability
functions over the reals; C `int` indices are modelled as `ℤ` where they
can go negative (coordinate transforms) and as `ℕ` inside the loops of
`extend_map`, whose bounds are non-negative.  The cell array
(`GridCell* _map_data`, row-major) is modelled as a total function
`ℕ → ℚ` from the 1-dimensional index to the cell's `_log_odds_val`;
the in-place loops of the source become left folds over the exact
iteration sequence of the corresponding `for` loops, one fold step per
loop body execution.
-/

namespace UGM

/-! ### Default parameter values (grid_map.h, grid_sensor.h) -/

def RESOLUTION : ℚ := 1/10
def WIDTH : ℕ := 300
def HEIGHT : ℕ := 300
def EXT_ZONE : ℕ := 50

/-! ### enum ExtZoneType (grid_map.h) -/

def NONE : ℕ := 0
def TOP : ℕ := 1
def LEFT : ℕ := 2
def DOWN : ℕ := 4
def RIGHT : ℕ := 8

/-! ### class GridCell (grid_cell.h)

A cell is its single field `_log_odds_val`; a cell value is passed and
returned explicitly instead of being mutated in place. -/

/-- Source `GridCell::update` (grid_cell.h): saturating log-odds accumulator.
Stated over any linear ordered field so that it serves both the
rational-valued grid model and the real-valued sensor model. -/
def GridCell.update {α : Type _} [LinearOrderedField α]
    (log_odds_val mea_log_odds : α) : α :=
  if (mea_log_odds > 0 ∧ log_odds_val < 50) ∨ (mea_log_odds < 0 ∧ log_odds_val > -50)
  then log_odds_val + mea_log_odds
  else log_odds_val

/-- Source `GridCell::prob_to_log_odds` (grid_cell.h). -/
noncomputable def GridCell.prob_to_log_odds (prob : ℝ) : ℝ :=
  Real.log (prob / (1 - prob))

/-- Source `GridCell::log_odds_to_prob` (grid_cell.h). -/
noncomputable def GridCell.log_odds_to_prob (log_odds : ℝ) : ℝ :=
  Real.exp log_odds / (Real.exp log_odds + 1)

/-! ### class GridSensor (grid_sensor.h) -/

structure GridSensor where
  log_odds_hit : ℝ
  log_odds_miss : ℝ

/-- Source `GridSensor::set_update_factor` (grid_sensor.h). -/
noncomputable def GridSensor.set_update_factor (hit_factor miss_factor : ℝ) : GridSensor :=
  { log_odds_hit := Real.log (hit_factor / miss_factor)
    log_odds_miss := Real.log ((1 - hit_factor) / (1 - miss_factor)) }

/-- Source `GridSensor::set_hit` (grid_sensor.h): updates a cell as occupied. -/
noncomputable def GridSensor.set_hit (s : GridSensor) (cell : ℝ) : ℝ :=
  GridCell.update cell s.log_odds_hit

/-- Source `GridSensor::set_miss` (grid_sensor.h): updates a cell as free. -/
noncomputable def GridSensor.set_miss (s : GridSensor) (cell : ℝ) : ℝ :=
  GridCell.update cell s.log_odds_miss

/-! ### class GridMap (grid_map.h) -/

/-- The fields of `GridMap`.  `_origin` is split into its two scalar
coordinates.  `_map_data` is the row-major cell array as a total
function from the 1-dimensional index to the cell's log-odds value
(allocation is not observable in this model, so `delete_map_data` /
`allocate_map_data` are modelled as preserving the function). -/
@[ext] structure GridMap where
  resolution : ℚ
  width : ℕ
  height : ℕ
  origin_x : ℚ
  origin_y : ℚ
  data : ℕ → ℚ

/-- Pointwise store into the modelled cell array: `_map_data[i] = v`. -/
def upd (d : ℕ → ℚ) (i : ℕ) (v : ℚ) : ℕ → ℚ :=
  fun j => if j = i then v else d j

/-- Source `GridMap::index_map(idx_x, idx_y)` (grid_map.h): row-major index. -/
def GridMap.index_map (g : GridMap) (idx_x idx_y : ℕ) : ℕ :=
  idx_y * g.width + idx_x

/-- Source `GridMap::set_origin` (grid_map.h): centers the grid rectangle on `pos`. -/
def GridMap.set_origin (g : GridMap) (pos_x pos_y : ℚ) : GridMap :=
  { g with
    origin_x := pos_x - g.resolution * g.width / 2
    origin_y := pos_y - g.resolution * g.height / 2 }

/-- Source `GridMap::reset_map_data` (grid_map.h): the loop
`for i in [0, width*height): _map_data[i].reset_value()`. -/
def GridMap.reset_map_data (g : GridMap) : GridMap :=
  { g with data := (List.range (g.width * g.height)).foldl (fun d i => upd d i 0) g.data }

/-- Source `GridMap::reset_map` (grid_map.h): `set_origin`, then delete /
allocate (not observable here), then `reset_map_data`. -/
def GridMap.reset_map (g : GridMap) (pos_x pos_y : ℚ) : GridMap :=
  (g.set_origin pos_x pos_y).reset_map_data

/-- Source `GridMap::init` (grid_map.h): sets the scalar fields, computes the
origin from the center position, allocates and resets the cell array. -/
def GridMap.init (resolution : ℚ) (width height : ℕ) (center_x center_y : ℚ) : GridMap :=
  (GridMap.set_origin
    { resolution := resolution, width := width, height := height
      origin_x := 0, origin_y := 0, data := fun _ => 0 }
    center_x center_y).reset_map_data

/-- Source `GridMap::is_in_border(idx_x, idx_y)` (grid_map.h). -/
def GridMap.is_in_border (g : GridMap) (idx_x idx_y : ℤ) : Bool :=
  decide (0 ≤ idx_x ∧ idx_x < (g.width : ℤ) ∧ 0 ≤ idx_y ∧ idx_y < (g.height : ℤ))

/-- The C `double`-to-`int` conversion in `xy_to_idx`
(`idx_x = (x - _origin.x()) / _resolution;`): truncation toward zero. -/
def ratTrunc (q : ℚ) : ℤ :=
  if 0 ≤ q then ⌊q⌋ else ⌈q⌉

/-- Source `GridMap::idx_to_xy` (grid_map.h): returns the out-parameters `x`,
`y` (the cell center) together with the boolean result. -/
def GridMap.idx_to_xy (g : GridMap) (idx_x idx_y : ℤ) : Bool × ℚ × ℚ :=
  (g.is_in_border idx_x idx_y,
   g.origin_x + g.resolution * ((idx_x : ℚ) + 1/2),
   g.origin_y + g.resolution * ((idx_y : ℚ) + 1/2))

/-- Source `GridMap::xy_to_idx` (grid_map.h): returns the boolean result
together with the out-parameters `idx_x`, `idx_y` (clamped into range
when the point is out of the border). -/
def GridMap.xy_to_idx (g : GridMap) (x y : ℚ) : Bool × ℤ × ℤ :=
  let idx_x := ratTrunc ((x - g.origin_x) / g.resolution)
  let idx_y := ratTrunc ((y - g.origin_y) / g.resolution)
  if g.is_in_border idx_x idx_y then
    (true, idx_x, idx_y)
  else
    (false, max 0 (min idx_x ((g.width : ℤ) - 1)), max 0 (min idx_y ((g.height : ℤ) - 1)))

/-- Source `GridMap::is_in_ext_zone` (grid_map.h): bitmask of the edge zones
containing the position, `NONE` when the position is out of the border.
The successive `|=` statements of the source are the successive `let`s. -/
def GridMap.is_in_ext_zone (g : GridMap) (pos_x pos_y : ℚ) : ℕ :=
  let res := g.xy_to_idx pos_x pos_y
  if res.1 then
    let z := NONE
    let z := if res.2.1 < (EXT_ZONE : ℤ) then z ||| LEFT else z
    let z := if (g.width : ℤ) - (EXT_ZONE : ℤ) ≤ res.2.1 then z ||| RIGHT else z
    let z := if res.2.2 < (EXT_ZONE : ℤ) then z ||| DOWN else z
    let z := if (g.height : ℤ) - (EXT_ZONE : ℤ) ≤ res.2.2 then z ||| TOP else z
    z
  else NONE

/-- The `LEFT` block of `GridMap::extend_map` (grid_map.h):
`y` ascending, `x` descending (`for x = width-1; x >= 0; x--`). -/
def applyLeft (g : GridMap) : GridMap :=
  { g with
    origin_x := g.origin_x - EXT_ZONE * g.resolution
    data := (List.range g.height).foldl (fun d y =>
      ((List.range g.width).reverse).foldl (fun d x =>
        if x < EXT_ZONE then upd d (y * g.width + x) 0
        else upd d (y * g.width + x) (d (y * g.width + (x - EXT_ZONE)))) d) g.data }

/-- The `RIGHT` block of `GridMap::extend_map` (grid_map.h):
`y` ascending, `x` ascending; the test `x >= _width - EXT_ZONE` is
C `int` arithmetic, hence taken in `ℤ`. -/
def applyRight (g : GridMap) : GridMap :=
  { g with
    origin_x := g.origin_x + EXT_ZONE * g.resolution
    data := (List.range g.height).foldl (fun d y =>
      (List.range g.width).foldl (fun d (x : ℕ) =>
        if (g.width : ℤ) - (EXT_ZONE : ℤ) ≤ (x : ℤ) then upd d (y * g.width + x) 0
        else upd d (y * g.width + x) (d (y * g.width + (x + EXT_ZONE)))) d) g.data }

/-- The `DOWN` block of `GridMap::extend_map` (grid_map.h):
`y` descending (`for y = height-1; y >= 0; y--`), `x` ascending. -/
def applyDown (g : GridMap) : GridMap :=
  { g with
    origin_y := g.origin_y - EXT_ZONE * g.resolution
    data := ((List.range g.height).reverse).foldl (fun d y =>
      (List.range g.width).foldl (fun d x =>
        if y < EXT_ZONE then upd d (y * g.width + x) 0
        else upd d (y * g.width + x) (d ((y - EXT_ZONE) * g.width + x))) d) g.data }

/-- The `TOP` block of `GridMap::extend_map` (grid_map.h):
`y` ascending, `x` ascending. -/
def applyTop (g : GridMap) : GridMap :=
  { g with
    origin_y := g.origin_y + EXT_ZONE * g.resolution
    data := (List.range g.height).foldl (fun d (y : ℕ) =>
      (List.range g.width).foldl (fun d x =>
        if (g.height : ℤ) - (EXT_ZONE : ℤ) ≤ (y : ℤ) then upd d (y * g.width + x) 0
        else upd d (y * g.width + x) (d ((y + EXT_ZONE) * g.width + x))) d) g.data }

/-- Source `GridMap::extend_map` (grid_map.h): early return on an empty mask,
then the four direction blocks in source order (LEFT, RIGHT, DOWN, TOP),
each guarded by its bit test. -/
def GridMap.extend_map (g : GridMap) (ext_zone_type : ℕ) : GridMap :=
  if ext_zone_type = 0 then g
  else
    let g := if ext_zone_type &&& LEFT ≠ 0 then applyLeft g else g
    let g := if ext_zone_type &&& RIGHT ≠ 0 then applyRight g else g
    let g := if ext_zone_type &&& DOWN ≠ 0 then applyDown g else g
    let g := if ext_zone_type &&& TOP ≠ 0 then applyTop g else g
    g

/-! ### Generic reasoning about the in-place shift loops

The nested `for` loops of `extend_map` all have the shape: iterate over
a sequence of cells, and at each cell either reset it or overwrite it
with the value currently stored at another cell.  `shiftFold` is that
shape; its two lemmas say what the loop computes provided the iteration
order never overwrites a cell that a later step still has to read. -/

/-- One loop-body execution: either reset the write target or copy the
current value at the read source into it. -/
def shiftStep {P : Type _} (w : P → ℕ) (c : P → Prop) [DecidablePred c] (r : P → ℕ)
    (d : ℕ → ℚ) (p : P) : ℕ → ℚ :=
  if c p then upd d (w p) 0 else upd d (w p) (d (r p))

/-- The whole loop: left fold of `shiftStep` over the iteration sequence. -/
def shiftFold {P : Type _} (w : P → ℕ) (c : P → Prop) [DecidablePred c] (r : P → ℕ)
    (d : ℕ → ℚ) (ps : List P) : ℕ → ℚ :=
  ps.foldl (shiftStep w c r) d

theorem upd_same (d : ℕ → ℚ) (i : ℕ) (v : ℚ) : upd d i v i = v := by
  simp [upd]

theorem upd_other (d : ℕ → ℚ) (i j : ℕ) (v : ℚ) (h : j ≠ i) : upd d i v j = d j := by
  simp [upd, h]

theorem shiftStep_other {P : Type _} (w : P → ℕ) (c : P → Prop) [DecidablePred c]
    (r : P → ℕ) (d : ℕ → ℚ) (p : P) (i : ℕ) (h : i ≠ w p) :
    shiftStep w c r d p i = d i := by
  unfold shiftStep
  split <;> exact upd_other _ _ _ _ h

/-- Cells never written by the loop keep their value. -/
theorem shiftFold_unchanged {P : Type _} (w : P → ℕ) (c : P → Prop) [DecidablePred c]
    (r : P → ℕ) :
    ∀ (ps : List P) (d : ℕ → ℚ) (i : ℕ), (∀ p ∈ ps, w p ≠ i) →
      shiftFold w c r d ps i = d i := by
  intro ps
  induction ps with
  | nil => intro d i _; rfl
  | cons a l ih =>
    intro d i h
    show shiftFold w c r (shiftStep w c r d a) l i = d i
    rw [ih _ _ (fun p hp => h p (List.mem_cons_of_mem a hp))]
    exact shiftStep_other w c r d a i (Ne.symm (h a (List.mem_cons_self a l)))

/-- Value of a written cell after the loop, in terms of the data before
the loop.  `hw`: no write target is written twice.  `hr`: no step
overwrites the read source of a later step. -/
theorem shiftFold_write {P : Type _} (w : P → ℕ) (c : P → Prop) [DecidablePred c]
    (r : P → ℕ) :
    ∀ (ps : List P), ps.Pairwise (fun a b => w a ≠ w b) →
      ps.Pairwise (fun a b => ¬ c b → w a ≠ r b) →
      ∀ (d : ℕ → ℚ) (p : P), p ∈ ps →
        shiftFold w c r d ps (w p) = if c p then 0 else d (r p) := by
  intro ps
  induction ps with
  | nil => intro _ _ _ p hp; cases hp
  | cons a l ih =>
    intro hw hr d p hp
    have hw1 := (List.pairwise_cons.mp hw).1
    have hw2 := (List.pairwise_cons.mp hw).2
    have hr1 := (List.pairwise_cons.mp hr).1
    have hr2 := (List.pairwise_cons.mp hr).2
    rcases List.mem_cons.mp hp with rfl | hpl
    · show shiftFold w c r (shiftStep w c r d p) l (w p) = _
      rw [shiftFold_unchanged w c r l _ _ (fun q hq => Ne.symm (hw1 q hq))]
      unfold shiftStep
      split <;> rw [upd_same]
    · show shiftFold w c r (shiftStep w c r d a) l (w p) = _
      rw [ih hw2 hr2 _ p hpl]
      by_cases hc : c p
      · simp [hc]
      · rw [if_neg hc, if_neg hc,
          shiftStep_other w c r d a (r p) (Ne.symm (hr1 p hpl hc))]

/-- Row-major iteration sequence: for each `y` of `ys` in order, all
`x` of `xs` in order. -/
def rowMajor (ys xs : List ℕ) : List (ℕ × ℕ) :=
  ys.flatMap fun y => xs.map fun x => (y, x)

theorem mem_rowMajor {p : ℕ × ℕ} {ys xs : List ℕ} :
    p ∈ rowMajor ys xs ↔ p.1 ∈ ys ∧ p.2 ∈ xs := by
  cases p with
  | mk y x =>
    constructor
    · intro h
      rcases List.mem_flatMap.mp h with ⟨y', hy', hx⟩
      rcases List.mem_map.mp hx with ⟨x', hx', heq⟩
      cases heq
      exact ⟨hy', hx'⟩
    · rintro ⟨hy, hx⟩
      exact List.mem_flatMap.mpr ⟨y, hy, List.mem_map.mpr ⟨x, hx, rfl⟩⟩

/-- A nested left fold is the left fold over the row-major sequence. -/
theorem foldl_rowMajor (f : (ℕ → ℚ) → (ℕ × ℕ) → (ℕ → ℚ)) (ys xs : List ℕ) :
    ∀ d : ℕ → ℚ, (rowMajor ys xs).foldl f d =
      ys.foldl (fun d y => xs.foldl (fun d x => f d (y, x)) d) d := by
  induction ys with
  | nil => intro d; rfl
  | cons a l ih =>
    intro d
    rw [rowMajor, List.flatMap_cons, List.foldl_append, List.foldl_map]
    exact ih _

theorem rowMajor_pairwise {R : ℕ × ℕ → ℕ × ℕ → Prop} {ys xs : List ℕ}
    (h1 : ys.Pairwise fun y₁ y₂ => ∀ x₁ ∈ xs, ∀ x₂ ∈ xs, R (y₁, x₁) (y₂, x₂))
    (h2 : ∀ y ∈ ys, xs.Pairwise fun x₁ x₂ => R (y, x₁) (y, x₂)) :
    (rowMajor ys xs).Pairwise R := by
  induction ys with
  | nil => exact List.Pairwise.nil
  | cons a l ih =>
    rw [rowMajor, List.flatMap_cons]
    refine List.pairwise_append.mpr ⟨?_, ?_, ?_⟩
    · exact List.pairwise_map.mpr (h2 a (List.mem_cons_self a l))
    · exact ih (List.pairwise_cons.mp h1).2 (fun y hy => h2 y (List.mem_cons_of_mem a hy))
    · intro p hp q hq
      rcases List.mem_map.mp hp with ⟨x₁, hx₁, rfl⟩
      rcases mem_rowMajor.mp hq with ⟨hy₂, hx₂⟩
      have := (List.pairwise_cons.mp h1).1 q.1 hy₂ x₁ hx₁ q.2 hx₂
      exact this

/-! ### Index arithmetic for the row-major layout -/

theorem idx_lt {W y₁ y₂ x₁ x₂ : ℕ} (hx : x₁ < W) (hy : y₁ < y₂) :
    y₁ * W + x₁ < y₂ * W + x₂ := by
  have h1 : y₁ * W + x₁ < (y₁ + 1) * W := by
    rw [Nat.succ_mul]
    exact Nat.add_lt_add_left hx _
  have h2 : (y₁ + 1) * W ≤ y₂ * W := Nat.mul_le_mul_right W hy
  exact Nat.lt_of_lt_of_le (Nat.lt_of_lt_of_le h1 h2) (Nat.le_add_right _ _)

theorem idx_lt_size {W H y x : ℕ} (hx : x < W) (hy : y < H) :
    y * W + x < W * H := by
  have h := @idx_lt W y H x 0 hx hy
  rw [Nat.add_zero] at h
  exact Nat.lt_of_lt_of_le h (Nat.le_of_eq (Nat.mul_comm H W))

theorem idx_decompose {W H i : ℕ} (hi : i < W * H) :
    (i % W) < W ∧ (i / W) < H ∧ i = (i / W) * W + (i % W) := by
  have hW : 0 < W := by
    rcases Nat.eq_zero_or_pos W with h | h
    · subst h; simp at hi
    · exact h
  refine ⟨Nat.mod_lt _ hW, ?_, ?_⟩
  · exact (Nat.div_lt_iff_lt_mul hW).mpr (by rw [Nat.mul_comm] at hi; exact hi)
  · have h := Nat.div_add_mod i W
    rw [Nat.mul_comm] at h
    omega

/-- The loop of `reset_map_data`: every cell below the size is reset,
the rest of the model function is unchanged. -/
theorem foldl_upd_zero (n : ℕ) :
    ∀ (d : ℕ → ℚ) (i : ℕ),
      ((List.range n).foldl (fun d j => upd d j 0) d) i = if i < n then 0 else d i := by
  induction n with
  | zero => intro d i; simp
  | succ k ih =>
    intro d i
    rw [List.range_succ, List.foldl_append]
    show upd ((List.range k).foldl (fun d j => upd d j 0) d) k 0 i = _
    by_cases hik : i = k
    · subst hik; rw [upd_same, if_pos (Nat.lt_succ_self i)]
    · rw [upd_other _ _ _ _ hik, ih]
      by_cases hlt : i < k
      · rw [if_pos hlt, if_pos (Nat.lt_succ_of_lt hlt)]
      · rw [if_neg hlt, if_neg (by omega)]

/-! ### Closed forms for the LEFT and DOWN blocks of `extend_map` -/

theorem applyLeft_data_eq (g : GridMap) :
    (applyLeft g).data =
      shiftFold (fun p => p.1 * g.width + p.2) (fun p => p.2 < EXT_ZONE)
        (fun p => p.1 * g.width + (p.2 - EXT_ZONE)) g.data
        (rowMajor (List.range g.height) ((List.range g.width).reverse)) := by
  rw [shiftFold, foldl_rowMajor]
  rfl

theorem applyDown_data_eq (g : GridMap) :
    (applyDown g).data =
      shiftFold (fun p => p.1 * g.width + p.2) (fun p => p.1 < EXT_ZONE)
        (fun p => (p.1 - EXT_ZONE) * g.width + p.2) g.data
        (rowMajor ((List.range g.height).reverse) (List.range g.width)) := by
  rw [shiftFold, foldl_rowMajor]
  rfl

theorem pairwise_left (W H m : ℕ) (hm : 0 < m) :
    (rowMajor (List.range H) ((List.range W).reverse)).Pairwise
      (fun a b => (a.1 * W + a.2 ≠ b.1 * W + b.2) ∧
        (¬ b.2 < m → a.1 * W + a.2 ≠ b.1 * W + (b.2 - m))) := by
  apply rowMajor_pairwise
  · refine (List.pairwise_lt_range H).imp ?_
    intro y₁ y₂ hy x₁ hx₁ x₂ hx₂
    have hx₁W : x₁ < W := List.mem_range.mp (List.mem_reverse.mp hx₁)
    exact ⟨Nat.ne_of_lt (idx_lt hx₁W hy),
      fun _ => Nat.ne_of_lt (idx_lt hx₁W hy)⟩
  · intro y _
    rw [List.pairwise_reverse]
    refine (List.pairwise_lt_range W).imp ?_
    intro x₁ x₂ hx
    constructor
    · intro heq
      have := Nat.add_left_cancel heq
      omega
    · intro hxm heq
      have := Nat.add_left_cancel heq
      omega

theorem pairwise_down (W H m : ℕ) (hm : 0 < m) :
    (rowMajor ((List.range H).reverse) (List.range W)).Pairwise
      (fun a b => (a.1 * W + a.2 ≠ b.1 * W + b.2) ∧
        (¬ b.1 < m → a.1 * W + a.2 ≠ (b.1 - m) * W + b.2)) := by
  apply rowMajor_pairwise
  · rw [List.pairwise_reverse]
    refine (List.pairwise_lt_range H).imp ?_
    intro y₁ y₂ hy x₁ hx₁ x₂ hx₂
    have hx₂W : x₂ < W := List.mem_range.mp hx₂
    constructor
    · exact Ne.symm (Nat.ne_of_lt (idx_lt hx₂W hy))
    · intro hym
      exact Ne.symm (Nat.ne_of_lt (idx_lt hx₂W (by omega)))
  · intro y _
    refine (List.pairwise_lt_range W).imp_of_mem ?_
    intro x₁ x₂ hx₁ hx₂ hx
    dsimp only
    constructor
    · intro heq
      have := Nat.add_left_cancel heq
      omega
    · intro hym
      have hx₂W : x₂ < W := List.mem_range.mp hx₂
      exact Ne.symm (Nat.ne_of_lt (idx_lt hx₂W (by omega)))

theorem applyLeft_data_at (g : GridMap) (x y : ℕ) (hx : x < g.width) (hy : y < g.height) :
    (applyLeft g).data (y * g.width + x) =
      if x < EXT_ZONE then 0 else g.data (y * g.width + (x - EXT_ZONE)) := by
  rw [applyLeft_data_eq]
  have hmem : ((y, x) : ℕ × ℕ) ∈
      rowMajor (List.range g.height) ((List.range g.width).reverse) :=
    mem_rowMajor.mpr ⟨List.mem_range.mpr hy, List.mem_reverse.mpr (List.mem_range.mpr hx)⟩
  have hpw := pairwise_left g.width g.height EXT_ZONE (by decide)
  exact shiftFold_write _ _ _ _ (hpw.imp fun h => h.1) (hpw.imp fun h => h.2)
    g.data (y, x) hmem

theorem applyDown_data_at (g : GridMap) (x y : ℕ) (hx : x < g.width) (hy : y < g.height) :
    (applyDown g).data (y * g.width + x) =
      if y < EXT_ZONE then 0 else g.data ((y - EXT_ZONE) * g.width + x) := by
  rw [applyDown_data_eq]
  have hmem : ((y, x) : ℕ × ℕ) ∈
      rowMajor ((List.range g.height).reverse) (List.range g.width) :=
    mem_rowMajor.mpr ⟨List.mem_reverse.mpr (List.mem_range.mpr hy), List.mem_range.mpr hx⟩
  have hpw := pairwise_down g.width g.height EXT_ZONE (by decide)
  exact shiftFold_write _ _ _ _ (hpw.imp fun h => h.1) (hpw.imp fun h => h.2)
    g.data (y, x) hmem

theorem applyLeft_data_out (g : GridMap) (i : ℕ) (hi : g.width * g.height ≤ i) :
    (applyLeft g).data i = g.data i := by
  rw [applyLeft_data_eq]
  apply shiftFold_unchanged
  intro p hp
  rcases mem_rowMajor.mp hp with ⟨hy, hx⟩
  have hyH := List.mem_range.mp hy
  have hxW := List.mem_range.mp (List.mem_reverse.mp hx)
  exact Nat.ne_of_lt (Nat.lt_of_lt_of_le (idx_lt_size hxW hyH) hi)

theorem applyDown_data_out (g : GridMap) (i : ℕ) (hi : g.width * g.height ≤ i) :
    (applyDown g).data i = g.data i := by
  rw [applyDown_data_eq]
  apply shiftFold_unchanged
  intro p hp
  rcases mem_rowMajor.mp hp with ⟨hy, hx⟩
  have hyH := List.mem_range.mp (List.mem_reverse.mp hy)
  have hxW := List.mem_range.mp hx
  exact Nat.ne_of_lt (Nat.lt_of_lt_of_le (idx_lt_size hxW hyH) hi)

/-! ### Closed form for the RIGHT block of `extend_map` -/

theorem applyRight_data_eq (g : GridMap) :
    (applyRight g).data =
      shiftFold (fun p => p.1 * g.width + p.2)
        (fun p => (g.width : ℤ) - (EXT_ZONE : ℤ) ≤ (p.2 : ℤ))
        (fun p => p.1 * g.width + (p.2 + EXT_ZONE)) g.data
        (rowMajor (List.range g.height) (List.range g.width)) := by
  rw [shiftFold, foldl_rowMajor]
  rfl

theorem pairwise_right (W H m : ℕ) :
    (rowMajor (List.range H) (List.range W)).Pairwise
      (fun a b => (a.1 * W + a.2 ≠ b.1 * W + b.2) ∧
        (¬ (W : ℤ) - (m : ℤ) ≤ (b.2 : ℤ) → a.1 * W + a.2 ≠ b.1 * W + (b.2 + m))) := by
  apply rowMajor_pairwise
  · refine (List.pairwise_lt_range H).imp ?_
    intro y₁ y₂ hy x₁ hx₁ x₂ hx₂
    have hx₁W : x₁ < W := List.mem_range.mp hx₁
    exact ⟨Nat.ne_of_lt (idx_lt hx₁W hy), fun _ => Nat.ne_of_lt (idx_lt hx₁W hy)⟩
  · intro y _
    refine (List.pairwise_lt_range W).imp ?_
    intro x₁ x₂ hx
    dsimp only
    constructor
    · intro heq
      have := Nat.add_left_cancel heq
      omega
    · intro _ heq
      have := Nat.add_left_cancel heq
      omega

theorem applyRight_data_at (g : GridMap) (x y : ℕ) (hx : x < g.width) (hy : y < g.height) :
    (applyRight g).data (y * g.width + x) =
      if (g.width : ℤ) - (EXT_ZONE : ℤ) ≤ (x : ℤ) then 0
      else g.data (y * g.width + (x + EXT_ZONE)) := by
  rw [applyRight_data_eq]
  have hmem : ((y, x) : ℕ × ℕ) ∈ rowMajor (List.range g.height) (List.range g.width) :=
    mem_rowMajor.mpr ⟨List.mem_range.mpr hy, List.mem_range.mpr hx⟩
  have hpw := pairwise_right g.width g.height EXT_ZONE
  exact shiftFold_write _ _ _ _ (hpw.imp fun h => h.1) (hpw.imp fun h => h.2)
    g.data (y, x) hmem

/-! ### Reduction of `extend_map` at the masks the claims use -/

theorem extend_map_left (g : GridMap) : g.extend_map LEFT = applyLeft g := rfl

theorem extend_map_down (g : GridMap) : g.extend_map DOWN = applyDown g := rfl

theorem extend_map_right (g : GridMap) : g.extend_map RIGHT = applyRight g := rfl

theorem extend_map_left_down (g : GridMap) :
    g.extend_map (LEFT ||| DOWN) = applyDown (applyLeft g) := rfl

theorem extend_map_none (g : GridMap) : g.extend_map NONE = g := rfl

/-! ### Frame facts used when composing direction blocks -/

theorem applyLeft_width (g : GridMap) : (applyLeft g).width = g.width := rfl

theorem applyDown_width (g : GridMap) : (applyDown g).width = g.width := rfl

/-- Concrete grid used by the witnesses: resolution 1, 60 × 52 cells,
origin (-30, -26) (the origin a call `init 1 60 52 (0, 0)` computes). -/
def gEx : GridMap :=
  { resolution := 1, width := 60, height := 52
    origin_x := -30, origin_y := -26, data := fun _ => 0 }

/-! ### Claim theorems -/

/-- C1: after `extend_map` with the LEFT flag set, the origin's
x-coordinate decreases by exactly `EXT_ZONE * resolution`; for all
`x ∈ [EXT_ZONE, width-1]` and `y ∈ [0, height-1]` the new cell `(x, y)`
holds the log-odds value the cell `(x - EXT_ZONE, y)` held before the
call; and every cell with `x < EXT_ZONE` holds the prior 0. -/
theorem C1_left_extension_overlap (g : GridMap) :
    (g.extend_map LEFT).origin_x = g.origin_x - EXT_ZONE * g.resolution ∧
    (∀ x y : ℕ, EXT_ZONE ≤ x → x < g.width → y < g.height →
      (g.extend_map LEFT).data (y * g.width + x) = g.data (y * g.width + (x - EXT_ZONE))) ∧
    (∀ x y : ℕ, x < EXT_ZONE → x < g.width → y < g.height →
      (g.extend_map LEFT).data (y * g.width + x) = 0) := by
  rw [extend_map_left]
  refine ⟨rfl, ?_, ?_⟩
  · intro x y hxm hxW hyH
    rw [applyLeft_data_at g x y hxW hyH, if_neg (by omega)]
  · intro x y hxm hxW hyH
    rw [applyLeft_data_at g x y hxW hyH, if_pos hxm]

/-- Witness for C1 at the concrete grid `gEx`, cell (55, 3). -/
theorem C1_witness :
    (gEx.extend_map LEFT).data (3 * gEx.width + 55) =
      gEx.data (3 * gEx.width + (55 - EXT_ZONE)) :=
  (C1_left_extension_overlap gEx).2.1 55 3 (by decide) (by decide) (by decide)

/-- C4: `GridCell::update` adds the increment exactly under the
asymmetric saturation guard, is the identity otherwise, and in
particular a negative increment is applied to a cell at or above +50. -/
theorem C4_saturating_update (v d : ℚ) :
    ((d > 0 ∧ v < 50) ∨ (d < 0 ∧ v > -50) → GridCell.update v d = v + d) ∧
    (¬ ((d > 0 ∧ v < 50) ∨ (d < 0 ∧ v > -50)) → GridCell.update v d = v) ∧
    (d < 0 → 50 ≤ v → GridCell.update v d = v + d) := by
  unfold GridCell.update
  exact ⟨fun h => if_pos h, fun h => if_neg h,
    fun hd hv => if_pos (Or.inr ⟨hd, by linarith⟩)⟩

/-- Witness for C4: a negative increment applied at a saturated value 60. -/
theorem C4_witness : GridCell.update (60 : ℚ) (-2) = 60 + -2 :=
  (C4_saturating_update 60 (-2)).2.2 (by norm_num) (by norm_num)

/-- C7: one `extend_map` call with LEFT and DOWN both set equals the two
single-flag calls in either order, and a call with no flag is the
identity. -/
theorem C7_axis_independence (g : GridMap) :
    g.extend_map (LEFT ||| DOWN) = (g.extend_map LEFT).extend_map DOWN ∧
    g.extend_map (LEFT ||| DOWN) = (g.extend_map DOWN).extend_map LEFT ∧
    g.extend_map NONE = g := by
  refine ⟨rfl, ?_, rfl⟩
  rw [extend_map_left_down, extend_map_down, extend_map_left]
  refine GridMap.ext rfl rfl rfl rfl rfl ?_
  funext i
  by_cases hi : g.width * g.height ≤ i
  · rw [applyDown_data_out (applyLeft g) i hi, applyLeft_data_out g i hi,
      applyLeft_data_out (applyDown g) i hi, applyDown_data_out g i hi]
  · push_neg at hi
    obtain ⟨hxW, hyH, hrep⟩ := idx_decompose hi
    rw [hrep]
    have h1 : (applyDown (applyLeft g)).data ((i / g.width) * g.width + i % g.width) =
        if i / g.width < EXT_ZONE then 0
        else (applyLeft g).data ((i / g.width - EXT_ZONE) * g.width + i % g.width) :=
      applyDown_data_at (applyLeft g) (i % g.width) (i / g.width) hxW hyH
    have h2 : (applyLeft g).data ((i / g.width - EXT_ZONE) * g.width + i % g.width) =
        if i % g.width < EXT_ZONE then 0
        else g.data ((i / g.width - EXT_ZONE) * g.width + (i % g.width - EXT_ZONE)) :=
      applyLeft_data_at g (i % g.width) (i / g.width - EXT_ZONE) hxW
        (Nat.lt_of_le_of_lt (Nat.sub_le _ _) hyH)
    have h3 : (applyLeft (applyDown g)).data ((i / g.width) * g.width + i % g.width) =
        if i % g.width < EXT_ZONE then 0
        else (applyDown g).data ((i / g.width) * g.width + (i % g.width - EXT_ZONE)) :=
      applyLeft_data_at (applyDown g) (i % g.width) (i / g.width) hxW hyH
    have h4 : (applyDown g).data ((i / g.width) * g.width + (i % g.width - EXT_ZONE)) =
        if i / g.width < EXT_ZONE then 0
        else g.data ((i / g.width - EXT_ZONE) * g.width + (i % g.width - EXT_ZONE)) :=
      applyDown_data_at g (i % g.width - EXT_ZONE) (i / g.width)
        (Nat.lt_of_le_of_lt (Nat.sub_le _ _) hxW) hyH
    rw [h1, h3, h2, h4]
    split_ifs <;> rfl

/-- C9 (implicit): a zero increment never changes a cell, and a sensor
configured with equal hit and miss factors has `log_odds_hit = 0`, so
its `set_hit` never changes a cell. -/
theorem C9_zero_increment_no_op :
    (∀ v : ℝ, GridCell.update v 0 = v) ∧
    (∀ hit_factor : ℝ,
      (GridSensor.set_update_factor hit_factor hit_factor).log_odds_hit = 0 ∧
      ∀ v : ℝ, (GridSensor.set_update_factor hit_factor hit_factor).set_hit v = v) := by
  have hupd : ∀ v : ℝ, GridCell.update v 0 = v := by
    intro v
    unfold GridCell.update
    rw [if_neg]
    rintro (⟨h, _⟩ | ⟨h, _⟩) <;> exact lt_irrefl 0 h
  have hlog : ∀ hf : ℝ, (GridSensor.set_update_factor hf hf).log_odds_hit = 0 := by
    intro hf
    show Real.log (hf / hf) = 0
    by_cases h : hf = 0
    · rw [h, div_zero, Real.log_zero]
    · rw [div_self h, Real.log_one]
  refine ⟨hupd, fun hf => ⟨hlog hf, fun v => ?_⟩⟩
  show GridCell.update v (GridSensor.set_update_factor hf hf).log_odds_hit = v
  rw [hlog hf]
  exact hupd v

/-- C10 (implicit): `reset_map` keeps resolution, width and height,
re-centers the origin on the given position, and resets every one of
the `width * height` cells to log-odds 0. -/
theorem C10_reset_map_frame (g : GridMap) (pos_x pos_y : ℚ) :
    (g.reset_map pos_x pos_y).resolution = g.resolution ∧
    (g.reset_map pos_x pos_y).width = g.width ∧
    (g.reset_map pos_x pos_y).height = g.height ∧
    (g.reset_map pos_x pos_y).origin_x = pos_x - g.resolution * g.width / 2 ∧
    (g.reset_map pos_x pos_y).origin_y = pos_y - g.resolution * g.height / 2 ∧
    (∀ x y : ℕ, x < g.width → y < g.height →
      (g.reset_map pos_x pos_y).data (y * g.width + x) = 0) := by
  refine ⟨rfl, rfl, rfl, rfl, rfl, ?_⟩
  intro x y hx hy
  show ((List.range (g.width * g.height)).foldl (fun d i => upd d i 0) g.data)
    (y * g.width + x) = 0
  rw [foldl_upd_zero]
  exact if_pos (idx_lt_size hx hy)

/-- Witness for C10 at the concrete grid `gEx`, center (3, 4), cell (0, 0). -/
theorem C10_witness : (gEx.reset_map 3 4).data (0 * gEx.width + 0) = 0 :=
  (C10_reset_map_frame gEx 3 4).2.2.2.2.2 0 0 (by decide) (by decide)

/-! ### Facts about the double-to-int truncation and `xy_to_idx` -/

theorem ratTrunc_of_nonneg {q : ℚ} (h : 0 ≤ q) : ratTrunc q = ⌊q⌋ := if_pos h

theorem ratTrunc_nonpos {q : ℚ} (h : q ≤ 0) : ratTrunc q ≤ 0 := by
  unfold ratTrunc
  split
  · have h2 := Int.floor_le_floor h
    rwa [Int.floor_zero] at h2
  · exact Int.ceil_le.mpr (by exact_mod_cast h)

theorem ratTrunc_intCast_add_half (n : ℤ) (hn : 0 ≤ n) : ratTrunc ((n : ℚ) + 1/2) = n := by
  have h1 : (0:ℚ) ≤ (n:ℚ) := by exact_mod_cast hn
  rw [ratTrunc_of_nonneg (by linarith), Int.floor_int_add]
  norm_num

/-- Inversion of a successful `xy_to_idx` call: the returned indices are
the truncated quotients and they are in the border. -/
theorem xy_to_idx_true {g : GridMap} {x y : ℚ} {ix iy : ℤ}
    (h : g.xy_to_idx x y = (true, ix, iy)) :
    ix = ratTrunc ((x - g.origin_x) / g.resolution) ∧
    iy = ratTrunc ((y - g.origin_y) / g.resolution) ∧
    0 ≤ ix ∧ ix < (g.width : ℤ) ∧ 0 ≤ iy ∧ iy < (g.height : ℤ) := by
  simp only [GridMap.xy_to_idx] at h
  split at h
  case isTrue hb =>
    have h2 : ratTrunc ((x - g.origin_x) / g.resolution) = ix :=
      congrArg (fun p => p.2.1) h
    have h3 : ratTrunc ((y - g.origin_y) / g.resolution) = iy :=
      congrArg (fun p => p.2.2) h
    have hb2 := of_decide_eq_true hb
    rw [h2, h3] at hb2
    exact ⟨h2.symm, h3.symm, hb2.1, hb2.2.1, hb2.2.2.1, hb2.2.2.2⟩
  case isFalse =>
    exact absurd (congrArg Prod.fst h) (by simp)

/-- The call `xy_to_idx` succeeds with the given indices as soon as the truncated
quotients equal them and they are in the border. -/
theorem xy_to_idx_eq_true (g : GridMap) (x y : ℚ) (ix iy : ℤ)
    (hx : ratTrunc ((x - g.origin_x) / g.resolution) = ix)
    (hy : ratTrunc ((y - g.origin_y) / g.resolution) = iy)
    (h0 : 0 ≤ ix) (h1 : ix < (g.width : ℤ)) (h2 : 0 ≤ iy) (h3 : iy < (g.height : ℤ)) :
    g.xy_to_idx x y = (true, ix, iy) := by
  have hb : g.is_in_border ix iy = true := decide_eq_true ⟨h0, h1, h2, h3⟩
  simp only [GridMap.xy_to_idx, hx, hy, hb, if_true]

/-- Modelled from the spec (for comparison with the source's
`xy_to_idx`): `world_to_idx(x,y) = floor((x,y − o)/r)`, clamped into
range with failure reported when out of bounds. -/
def xy_to_idx_floor_spec (g : GridMap) (x y : ℚ) : Bool × ℤ × ℤ :=
  let idx_x := ⌊(x - g.origin_x) / g.resolution⌋
  let idx_y := ⌊(y - g.origin_y) / g.resolution⌋
  if g.is_in_border idx_x idx_y then
    (true, idx_x, idx_y)
  else
    (false, max 0 (min idx_x ((g.width : ℤ) - 1)), max 0 (min idx_y ((g.height : ℤ) - 1)))

/-- Grid used for the C2 counterexample: resolution 1, 4 × 4 cells,
origin (0, 0) (as produced by `init 1 4 4 (2, 2)`). -/
def gC2 : GridMap :=
  { resolution := 1, width := 4, height := 4
    origin_x := 0, origin_y := 0, data := fun _ => 0 }

/-- C2 counterexample: at world point (-1/2, 1/2) the quotient is
(-1/2, 1/2); the source truncates toward zero and reports success with
index (0, 0), while the floor semantics the claim states gives index
(-1, 0), out of bounds, hence failure with the clamped index. -/
theorem C2_counterexample :
    gC2.xy_to_idx (-1/2) (1/2) = (true, 0, 0) ∧
    xy_to_idx_floor_spec gC2 (-1/2) (1/2) = (false, 0, 0) := by
  constructor <;>
    norm_num [GridMap.xy_to_idx, xy_to_idx_floor_spec, ratTrunc, GridMap.is_in_border,
      Int.ceil_neg, gC2]

/-- C2 amended: `xy_to_idx` computes the quotients truncated toward
zero (floor only for non-negative quotients); in bounds it returns true
with the unclamped indices, out of bounds it returns false with the
indices clamped into `[0,width-1] × [0,height-1]`. -/
theorem C2_trunc_transform (g : GridMap) (x y : ℚ)
    (hW : 0 < g.width) (hH : 0 < g.height) :
    (g.is_in_border (ratTrunc ((x - g.origin_x) / g.resolution))
        (ratTrunc ((y - g.origin_y) / g.resolution)) = true →
      g.xy_to_idx x y =
        (true, ratTrunc ((x - g.origin_x) / g.resolution),
         ratTrunc ((y - g.origin_y) / g.resolution))) ∧
    (g.is_in_border (ratTrunc ((x - g.origin_x) / g.resolution))
        (ratTrunc ((y - g.origin_y) / g.resolution)) = false →
      (g.xy_to_idx x y).1 = false ∧
      (g.xy_to_idx x y).2.1 =
        max 0 (min (ratTrunc ((x - g.origin_x) / g.resolution)) ((g.width : ℤ) - 1)) ∧
      (g.xy_to_idx x y).2.2 =
        max 0 (min (ratTrunc ((y - g.origin_y) / g.resolution)) ((g.height : ℤ) - 1)) ∧
      0 ≤ (g.xy_to_idx x y).2.1 ∧ (g.xy_to_idx x y).2.1 < (g.width : ℤ) ∧
      0 ≤ (g.xy_to_idx x y).2.2 ∧ (g.xy_to_idx x y).2.2 < (g.height : ℤ)) := by
  have hWZ : 0 < (g.width : ℤ) := by exact_mod_cast hW
  have hHZ : 0 < (g.height : ℤ) := by exact_mod_cast hH
  constructor
  · intro hb
    simp only [GridMap.xy_to_idx, hb, if_true]
  · intro hb
    simp only [GridMap.xy_to_idx, hb, Bool.false_eq_true, if_false]
    refine ⟨trivial, trivial, trivial, ?_, ?_, ?_, ?_⟩ <;> omega

/-- Witness for the amended C2 at `gC2` and the out-of-range point
(12, 1/2): failure is reported and the returned index is in range. -/
theorem C2_witness :
    (gC2.xy_to_idx 12 (1/2)).1 = false ∧
    0 ≤ (gC2.xy_to_idx 12 (1/2)).2.1 ∧ (gC2.xy_to_idx 12 (1/2)).2.1 < (gC2.width : ℤ) := by
  have h := (C2_trunc_transform gC2 12 (1/2) (by decide) (by decide)).2
    (by norm_num [GridMap.is_in_border, ratTrunc, gC2])
  exact ⟨h.1, h.2.2.2.1, h.2.2.2.2.1⟩

/-- C3: after `extend_map` with the RIGHT flag, the origin's x grows by
exactly `EXT_ZONE * resolution`, and a world point the transform sent to
`(ix, iy)` with `ix ≥ EXT_ZONE` is now sent to `(ix - EXT_ZONE, iy)`
(still successfully), and the cell the point now addresses holds the
log-odds value the cell it addressed before the call held, so the cell
content addressed by that world point is unchanged. -/
theorem C3_right_origin_compensation (g : GridMap) (wx wy : ℚ) (ix iy : ℤ)
    (h : g.xy_to_idx wx wy = (true, ix, iy)) (hix : (EXT_ZONE : ℤ) ≤ ix) :
    (g.extend_map RIGHT).origin_x = g.origin_x + EXT_ZONE * g.resolution ∧
    (g.extend_map RIGHT).xy_to_idx wx wy = (true, ix - EXT_ZONE, iy) ∧
    (g.extend_map RIGHT).data (iy.toNat * g.width + (ix - (EXT_ZONE : ℤ)).toNat) =
      g.data (iy.toNat * g.width + ix.toNat) := by
  obtain ⟨hxeq, hyeq, hx0, hxW, hy0, hyH⟩ := xy_to_idx_true h
  have hEZ : (EXT_ZONE : ℤ) = 50 := rfl
  have hr : g.resolution ≠ 0 := by
    intro h0
    rw [h0, div_zero] at hxeq
    simp only [ratTrunc, le_refl, if_pos, Int.floor_zero] at hxeq
    omega
  have hq0 : 0 ≤ (wx - g.origin_x) / g.resolution := by
    by_contra hneg
    push_neg at hneg
    have h2 := ratTrunc_nonpos (le_of_lt hneg)
    omega
  have hfl : ⌊(wx - g.origin_x) / g.resolution⌋ = ix := by
    rw [← ratTrunc_of_nonneg hq0]
    exact hxeq.symm
  have hle : (ix : ℚ) ≤ (wx - g.origin_x) / g.resolution := by
    rw [← hfl]
    exact Int.floor_le _
  rw [extend_map_right]
  refine ⟨rfl, ?_, ?_⟩
  case refine_2 =>
    have hx' : (ix - (EXT_ZONE : ℤ)).toNat < g.width := by omega
    have hy' : iy.toNat < g.height := by omega
    have h3 := applyRight_data_at g ((ix - (EXT_ZONE : ℤ)).toNat) iy.toNat hx' hy'
    have hidx : (ix - (EXT_ZONE : ℤ)).toNat + EXT_ZONE = ix.toNat := by omega
    rw [h3, if_neg (by omega), hidx]
  apply xy_to_idx_eq_true
  · show ratTrunc ((wx - (g.origin_x + (EXT_ZONE : ℚ) * g.resolution)) / g.resolution)
      = ix - EXT_ZONE
    have hquot : (wx - (g.origin_x + (EXT_ZONE : ℚ) * g.resolution)) / g.resolution
        = (wx - g.origin_x) / g.resolution - ((EXT_ZONE : ℤ) : ℚ) := by
      push_cast
      field_simp
      ring
    have h50q : ((EXT_ZONE : ℤ) : ℚ) ≤ (wx - g.origin_x) / g.resolution :=
      le_trans (by exact_mod_cast hix) hle
    rw [hquot, ratTrunc_of_nonneg (by linarith), Int.floor_sub_int, hfl]
  · show ratTrunc ((wy - g.origin_y) / g.resolution) = iy
    exact hyeq.symm
  · omega
  · show ix - (EXT_ZONE : ℤ) < (g.width : ℤ)
    omega
  · exact hy0
  · exact hyH

/-- Witness for C3 at `gEx` and world point (51/2, 1/2), mapped to
(55, 26) before the extension. -/
theorem C3_witness :
    (gEx.extend_map RIGHT).origin_x = gEx.origin_x + EXT_ZONE * gEx.resolution ∧
    (gEx.extend_map RIGHT).xy_to_idx (51/2) (1/2) = (true, 55 - (EXT_ZONE : ℤ), 26) ∧
    (gEx.extend_map RIGHT).data ((26 : ℤ).toNat * gEx.width +
        ((55 : ℤ) - (EXT_ZONE : ℤ)).toNat) =
      gEx.data ((26 : ℤ).toNat * gEx.width + (55 : ℤ).toNat) :=
  C3_right_origin_compensation gEx (51/2) (1/2) 55 26
    (by norm_num [GridMap.xy_to_idx, ratTrunc, GridMap.is_in_border, gEx])
    (by decide)

/-- C5: for any in-bounds index pair, `idx_to_xy` reports success and
`xy_to_idx` applied to the produced world coordinates succeeds and
returns the same pair. -/
theorem C5_round_trip (g : GridMap) (ix iy : ℤ) (hr : g.resolution ≠ 0)
    (hx0 : 0 ≤ ix) (hxW : ix < (g.width : ℤ)) (hy0 : 0 ≤ iy) (hyH : iy < (g.height : ℤ)) :
    (g.idx_to_xy ix iy).1 = true ∧
    g.xy_to_idx (g.idx_to_xy ix iy).2.1 (g.idx_to_xy ix iy).2.2 = (true, ix, iy) := by
  constructor
  · exact decide_eq_true ⟨hx0, hxW, hy0, hyH⟩
  · apply xy_to_idx_eq_true
    · show ratTrunc ((g.origin_x + g.resolution * ((ix : ℚ) + 1/2) - g.origin_x)
        / g.resolution) = ix
      rw [add_sub_cancel_left, mul_div_cancel_left₀ _ hr]
      exact ratTrunc_intCast_add_half ix hx0
    · show ratTrunc ((g.origin_y + g.resolution * ((iy : ℚ) + 1/2) - g.origin_y)
        / g.resolution) = iy
      rw [add_sub_cancel_left, mul_div_cancel_left₀ _ hr]
      exact ratTrunc_intCast_add_half iy hy0
    · exact hx0
    · exact hxW
    · exact hy0
    · exact hyH

/-- Witness for C5 at `gEx`, index pair (10, 20). -/
theorem C5_witness :
    gEx.xy_to_idx (gEx.idx_to_xy 10 20).2.1 (gEx.idx_to_xy 10 20).2.2 = (true, 10, 20) :=
  (C5_round_trip gEx 10 20 (by norm_num [gEx]) (by decide) (by decide) (by decide)
    (by decide)).2

/-- C6: `is_in_ext_zone` returns NONE for a position out of the border,
and otherwise the OR-combination of exactly the flags whose edge
comparison holds (LEFT iff `idx_x < EXT_ZONE`, RIGHT iff
`idx_x ≥ width - EXT_ZONE`, DOWN iff `idx_y < EXT_ZONE`, TOP iff
`idx_y ≥ height - EXT_ZONE`). -/
theorem C6_boundary_zone (g : GridMap) (pos_x pos_y : ℚ) :
    ((g.xy_to_idx pos_x pos_y).1 = false → g.is_in_ext_zone pos_x pos_y = NONE) ∧
    ((g.xy_to_idx pos_x pos_y).1 = true →
      ((g.is_in_ext_zone pos_x pos_y &&& LEFT ≠ 0 ↔
          (g.xy_to_idx pos_x pos_y).2.1 < (EXT_ZONE : ℤ)) ∧
       (g.is_in_ext_zone pos_x pos_y &&& RIGHT ≠ 0 ↔
          (g.width : ℤ) - (EXT_ZONE : ℤ) ≤ (g.xy_to_idx pos_x pos_y).2.1) ∧
       (g.is_in_ext_zone pos_x pos_y &&& DOWN ≠ 0 ↔
          (g.xy_to_idx pos_x pos_y).2.2 < (EXT_ZONE : ℤ)) ∧
       (g.is_in_ext_zone pos_x pos_y &&& TOP ≠ 0 ↔
          (g.height : ℤ) - (EXT_ZONE : ℤ) ≤ (g.xy_to_idx pos_x pos_y).2.2))) := by
  constructor
  · intro h
    simp only [GridMap.is_in_ext_zone, h, Bool.false_eq_true, if_false]
  · intro h
    simp only [GridMap.is_in_ext_zone, h, if_true]
    by_cases h1 : (g.xy_to_idx pos_x pos_y).2.1 < (EXT_ZONE : ℤ) <;>
      by_cases h2 : (g.width : ℤ) - (EXT_ZONE : ℤ) ≤ (g.xy_to_idx pos_x pos_y).2.1 <;>
      by_cases h3 : (g.xy_to_idx pos_x pos_y).2.2 < (EXT_ZONE : ℤ) <;>
      by_cases h4 : (g.height : ℤ) - (EXT_ZONE : ℤ) ≤ (g.xy_to_idx pos_x pos_y).2.2 <;>
      simp [h1, h2, h3, h4, NONE, LEFT, RIGHT, DOWN, TOP] <;> decide

/-- Witness for C6 at `gEx` and in-bounds world point (-59/2, -51/2)
(index (0,0), in both the LEFT and DOWN zones). -/
theorem C6_witness :
    gEx.is_in_ext_zone (-59/2) (-51/2) &&& LEFT ≠ 0 ↔
      (gEx.xy_to_idx (-59/2) (-51/2)).2.1 < (EXT_ZONE : ℤ) :=
  ((C6_boundary_zone gEx (-59/2) (-51/2)).2
    (by norm_num [GridMap.xy_to_idx, ratTrunc, GridMap.is_in_border, gEx])).1

/-- C8: the probability / log-odds conversions are exact inverses on
(0, 1). -/
theorem C8_prob_log_odds_inverse (p : ℝ) (h0 : 0 < p) (h1 : p < 1) :
    GridCell.log_odds_to_prob (GridCell.prob_to_log_odds p) = p := by
  unfold GridCell.log_odds_to_prob GridCell.prob_to_log_odds
  have h2 : (0:ℝ) < 1 - p := by linarith
  rw [Real.exp_log (div_pos h0 h2)]
  have h3 : p / (1 - p) + 1 = 1 / (1 - p) := by
    field_simp
  rw [h3, one_div, div_inv_eq_mul, div_mul_cancel₀ _ (ne_of_gt h2)]

/-- Witness for C8 at p = 1/2. -/
theorem C8_witness :
    GridCell.log_odds_to_prob (GridCell.prob_to_log_odds (1/2)) = 1/2 :=
  C8_prob_log_odds_inverse (1/2) (by norm_num) (by norm_num)

end UGM
